import Mathlib

/-!
Verification of the purchase-order product composition page controller
(logistics/static/js/po_populate.js) and its REST helper (api.js).

The JavaScript is shallowly embedded: page state (the orderProducts array)
becomes explicit list passing, JavaScript numbers become exact rationals, and
a possibly-NaN-or-undefined number is `Option Rat` with `none` standing for
NaN/undefined.  `Math.round`, `Math.floor` and `Number.toFixed` are modelled
by their ECMAScript definitions on rationals (ties round toward positive
infinity for round and toFixed).
-/

namespace PoPopulate

/-- A JavaScript number that may be NaN or undefined: `none` models
NaN/undefined, `some q` a (finite) numeric value, taken as an exact
rational. -/
abbrev JSNum := Option ℚ

/-- Addition on possibly-NaN numbers: NaN propagates. -/
def jsAdd : JSNum → JSNum → JSNum
  | some a, some b => some (a + b)
  | _, _ => none

/-- Subtraction on possibly-NaN numbers: NaN propagates. -/
def jsSub : JSNum → JSNum → JSNum
  | some a, some b => some (a - b)
  | _, _ => none

/-- Multiplication on possibly-NaN numbers: NaN propagates. -/
def jsMul : JSNum → JSNum → JSNum
  | some a, some b => some (a * b)
  | _, _ => none

/-- Division on possibly-NaN numbers: NaN propagates.  (Division by zero is
never exercised here: the only divisors are the constants 100 and
`(100 + t) / 100`.) -/
def jsDiv : JSNum → JSNum → JSNum
  | some a, some b => some (a / b)
  | _, _ => none

/-- `Math.floor`, NaN propagating. -/
def jsFloor : JSNum → JSNum
  | some a => some ((⌊a⌋ : ℤ) : ℚ)
  | none => none

/-- `roundValue = (value) => Math.round(value * 100) / 100` (po_populate.js
line 17).  `Math.round` rounds to the nearest integer, ties toward positive
infinity. -/
def roundValue (v : ℚ) : ℚ := ((⌊v * 100 + 1 / 2⌋ : ℤ) : ℚ) / 100

/-- `roundValue` lifted to possibly-NaN numbers. -/
def jsRound2 : JSNum → JSNum
  | some a => some (roundValue a)
  | none => none

/-- The observable content of `Number(x).toFixed(1)`: the number of tenths
after rounding (ECMAScript toFixed rounds ties toward the larger integer).
`none` models the string produced for NaN, so two NaN inputs compare
equal, exactly like the JavaScript string comparison
`Number(undefined).toFixed(1) === Number(undefined).toFixed(1)`. -/
def toFixed1 : JSNum → Option ℤ
  | some a => some ⌊a * 10 + 1 / 2⌋
  | none => none

/-- `x || 0` for a possibly-undefined number: undefined (and NaN) fall back
to 0; the falsy number 0 also yields 0, so on numbers this is `getD 0`. -/
def jsOrZero : JSNum → ℚ
  | some v => v
  | none => 0

/-- A supplier record as served by `inventory/suppliers`. -/
structure Supplier where
  id : ℤ
  name : String
  email : Option String
deriving DecidableEq, Repr

/-- A product record as served by `inventory/supplier-products`.
`brandName` models `brand?.name`; the voucher fields may be absent
(undefined) on non-MONEY products. -/
structure Product where
  id : ℤ
  sku : String
  name : String
  category : String
  brandName : Option String
  reference : String
  main_image_link : String
  cost_price : ℚ
  tax_percent : ℚ
  product_kind : String
  voucher_value : JSNum
  supplier_discount_rate : JSNum
  client_discount_rate : JSNum
deriving DecidableEq, Repr

/-- A line of the in-memory `orderProducts` array, with every field any of
the constructors (`addProduct`, `loadOrderFromInitData`) may set; fields a
given constructor leaves unset are `none` (undefined). -/
structure OrderLine where
  pk : Option String
  id : ℤ
  main : String
  name : String
  category : String
  brand : Option String
  quantity : ℤ
  quantity_received : ℤ
  sku : String
  barcode : String
  cost_price : JSNum
  product_kind : String
  status : String
  voucher_value : JSNum
  supplier_discount_rate : JSNum
  orders : Option String
  variations_json : Option String
deriving DecidableEq, Repr

/-- The tax-exclusive cost of the first `addProduct` variant (line 191):
`roundValue(cost_price / ((100 + tax_percent) / 100))`. -/
def costExclusiveV1 (c t : ℚ) : ℚ := roundValue (c / ((100 + t) / 100))

/-- The tax-exclusive cost of the second `addProduct` variant (line 641):
`roundValue(cost_price * (1 - tax_percent / 100))`. -/
def costExclusiveV2 (c t : ℚ) : ℚ := roundValue (c * (1 - t / 100))

/-- The `newProduct` object literal built by the first `addProduct` variant
(lines 181-201), MONEY overrides included.  In the MONEY branch the source
first stores the raw voucher value, then the floored discounted cost, and
finally overwrites the voucher value with `roundValue` of the raw value, so
the net line is as built here. -/
def mkNewProduct (sp : Product) (qty : ℤ) (status : String) : OrderLine :=
  let base : OrderLine :=
    { pk := none
      id := sp.id
      main := sp.main_image_link
      name := sp.name
      category := sp.category
      brand := sp.brandName
      quantity := qty
      quantity_received := 0
      sku := sp.sku
      barcode := sp.reference
      cost_price := some (costExclusiveV1 sp.cost_price sp.tax_percent)
      product_kind := sp.product_kind
      status := status
      voucher_value := sp.voucher_value
      supplier_discount_rate := none
      orders := none
      variations_json := none }
  if sp.product_kind = "MONEY" then
    { base with
      voucher_value := jsRound2 sp.voucher_value
      supplier_discount_rate := sp.supplier_discount_rate
      cost_price :=
        jsFloor (jsMul sp.voucher_value
          (jsSub (some 1) (jsDiv sp.supplier_discount_rate (some 100)))) }
  else base

/-- The duplicate-line guard of the first `addProduct` variant (line 180):
an existing line matches the selected product when both the sku and the
voucher value rendered by `toFixed(1)` agree. -/
def sameSkuVoucher (p : OrderLine) (sp : Product) : Bool :=
  p.sku == sp.sku && (toFixed1 p.voucher_value == toFixed1 sp.voucher_value)

/-- The first `addProduct` variant (lines 179-207).  The selected product,
selected quantity and order status are page state, passed explicitly; the
DOM/table updates are not part of the list transition. -/
def addProduct (selectedProduct : Option Product) (qty : ℤ) (status : String)
    (orderProducts : List OrderLine) : List OrderLine :=
  match selectedProduct with
  | none => orderProducts
  | some sp =>
    if orderProducts.any (fun p => sameSkuVoucher p sp) then orderProducts
    else orderProducts ++ [mkNewProduct sp qty status]

/-- The `newProduct` object literal built by the second `addProduct` variant
(lines 631-648): tax exclusion by multiplication, and the MONEY branch only
copies `client_discount_rate` and `supplier_discount_rate` without touching
the cost price. -/
def mkNewProductV2 (sp : Product) (qty : ℤ) (status : String) : OrderLine :=
  let base : OrderLine :=
    { pk := none
      id := sp.id
      main := sp.main_image_link
      name := sp.name
      category := sp.category
      brand := sp.brandName
      quantity := qty
      quantity_received := 0
      sku := sp.sku
      barcode := sp.reference
      cost_price := some (costExclusiveV2 sp.cost_price sp.tax_percent)
      product_kind := sp.product_kind
      status := status
      voucher_value := none
      supplier_discount_rate := none
      orders := none
      variations_json := none }
  if sp.product_kind = "MONEY" then
    { base with
      voucher_value := sp.client_discount_rate
      supplier_discount_rate := sp.supplier_discount_rate }
  else base

/-- The second `addProduct` variant (lines 629-654): the duplicate guard
matches on the sku alone. -/
def addProductV2 (selectedProduct : Option Product) (qty : ℤ) (status : String)
    (orderProducts : List OrderLine) : List OrderLine :=
  match selectedProduct with
  | none => orderProducts
  | some sp =>
    if orderProducts.any (fun p => p.sku == sp.sku) then orderProducts
    else orderProducts ++ [mkNewProductV2 sp qty status]

/-- Run a sequence of calls of the first `addProduct` variant, starting from
a given order state: the state machine the composition screen drives. -/
def runAddProducts (status : String) (init : List OrderLine)
    (seq : List (Product × ℤ)) : List OrderLine :=
  seq.foldl (fun l pq => addProduct (some pq.1) pq.2 status l) init

/-- The `productData` object built for one init product inside
`loadOrderFromInitData` (lines 108-131): `voucher` is
`vouchers[productPk]`, possibly absent; in the MONEY branch both the
voucher value and the supplier discount rate fall back to 0 via `|| 0`,
the cost price becomes the floored discounted voucher value, and the
stored voucher value is rounded to two decimals. -/
def mkInitLine (pk : String) (sp : Product) (voucher : JSNum) (status : String)
    (orders : Option String) (variations_json : Option String) : OrderLine :=
  let base : OrderLine :=
    { pk := some pk
      id := sp.id
      main := sp.main_image_link
      name := sp.name
      category := sp.category
      brand := sp.brandName
      quantity := 0
      quantity_received := 0
      sku := sp.sku
      barcode := sp.reference
      cost_price := some (costExclusiveV1 sp.cost_price sp.tax_percent)
      product_kind := sp.product_kind
      status := status
      voucher_value := none
      supplier_discount_rate := none
      orders := orders
      variations_json := variations_json }
  if sp.product_kind = "MONEY" then
    { base with
      voucher_value := some (roundValue (jsOrZero voucher))
      supplier_discount_rate := some (jsOrZero sp.supplier_discount_rate)
      cost_price :=
        some ((⌊jsOrZero voucher *
          (1 - jsOrZero sp.supplier_discount_rate / 100)⌋ : ℤ) : ℚ) }
  else base

/-- The line lookup of `updateQuantity` (line 272): the id compared after
`String` conversion and the voucher values compared by their `toFixed(1)`
renderings. -/
def uqMatch (idx : ℤ) (vv : JSNum) (p : OrderLine) : Bool :=
  (toString p.id == toString idx) && (toFixed1 p.voucher_value == toFixed1 vv)

/-- `updateQuantity` (lines 271-284): find the first line matching the
(id, voucher value) key and, when its new quantity would stay positive,
mutate that line quantity in place; otherwise leave the array as it is. -/
def updateQuantity (idx : ℤ) (vv : JSNum) (delta : ℤ) :
    List OrderLine → List OrderLine
  | [] => []
  | p :: ps =>
    if uqMatch idx vv p then
      if p.quantity + delta > 0 then { p with quantity := p.quantity + delta } :: ps
      else p :: ps
    else p :: updateQuantity idx vv delta ps

/-- The concatenated deletion key `id + "_" + voucher_value` (line 287),
built from already-rendered strings. -/
def deleteKey (id vv : String) : String := id ++ "_" ++ vv

/-- The key of a stored line as `deleteProduct` computes it on the fly.
`numStr` is the ECMAScript number-to-string rendering applied to the
voucher value; it is float64-dependent, so the embedding abstracts it as a
parameter (every result below holds for an arbitrary rendering). -/
def lineKey (numStr : JSNum → String) (p : OrderLine) : String :=
  deleteKey (toString p.id) (numStr p.voucher_value)

/-- `deleteProduct` (lines 286-291): keep exactly the lines whose
concatenated key differs from the given one. -/
def deleteProduct (numStr : JSNum → String) (id vv : String)
    (orderProducts : List OrderLine) : List OrderLine :=
  orderProducts.filter (fun p => lineKey numStr p ≠ deleteKey id vv)

/-- The reduce inside `updateSubtotal` (line 295):
`x + _product.quantity * _product.cost_price` over all lines, starting
from 0, in JavaScript (NaN-propagating) arithmetic. -/
def subtotalFold (orderProducts : List OrderLine) : JSNum :=
  orderProducts.foldl
    (fun x p => jsAdd x (jsMul (some (p.quantity : ℚ)) p.cost_price)) (some 0)

/-- The numeric content of the text `updateSubtotal` (lines 293-299) writes
into the sub-total element: the rounded reduce when the array is non-empty,
0 otherwise. -/
def updateSubtotal (orderProducts : List OrderLine) : JSNum :=
  if orderProducts.length ≠ 0 then jsRound2 (subtotalFold orderProducts)
  else some 0

/-- HTTP methods used by the page. -/
inductive Method where
  | get
  | post
  | patch
deriving DecidableEq, Repr

/-- A request as issued by the API helper: method and endpoint path
(relative to the base URL). -/
structure Request where
  method : Method
  endpoint : String
deriving DecidableEq, Repr

/-- The request selection of `sendProductsOrder` (lines 920-929): PATCH to
`logistics/order-products/{id}` when the id is not the empty string, POST
to `logistics/order-products` otherwise.  The order payload and CSRF header
do not influence the choice and are omitted. -/
def sendProductsOrder (id : String) : Request :=
  if id ≠ "" then
    { method := Method.patch, endpoint := "logistics/order-products/" ++ id }
  else
    { method := Method.post, endpoint := "logistics/order-products" }

/-- A parsed JSON response body as `_callAPI` sees it: the `data` field it
resolves with (of type `β`) and the remaining fields (of type `ρ`). -/
structure RespBody (β ρ : Type) where
  data : β
  rest : ρ
deriving DecidableEq, Repr

/-- The outcome of the `fetch` call plus `response.json()` parsing that
`_callAPI` reacts to: either the fetch itself fails, or a response arrives
with its `ok` flag and `status`, and a body that parses (`some`) or does
not (`none`). -/
inductive FetchOutcome (β ρ : Type) where
  | netFail
  | resp (ok : Bool) (status : ℤ) (parsedBody : Option (RespBody β ρ))
deriving DecidableEq, Repr

/-- The rejection object of `_callAPI`: always a status, and the parsed
body when one was available. -/
structure ApiError (β ρ : Type) where
  status : ℤ
  data : Option (RespBody β ρ)
deriving DecidableEq, Repr

/-- `_callAPI` (lines 931-972) as a function from the fetch/parse outcome
to resolve-or-reject: a failed fetch rejects with status -1; an unparsable
body rejects with the HTTP status only; a parsed body resolves with its
`data` field when the response is ok, and otherwise rejects with the HTTP
status and the parsed body. -/
def callAPI : FetchOutcome β ρ → Except (ApiError β ρ) β
  | FetchOutcome.netFail => Except.error { status := -1, data := none }
  | FetchOutcome.resp _ status none => Except.error { status := status, data := none }
  | FetchOutcome.resp ok status (some b) =>
    if ok then Except.ok b.data
    else Except.error { status := status, data := some b }

/-- An element of the heterogeneous array the XLSX import works on: both an
existing `orderProducts` line and a raw imported row.  The import only ever
reads the `sku`, `quantity` and `supplier` properties; every other property
is carried opaquely in `other` (for an existing line, `supplier` is the
undefined property access, i.e. `none`). -/
structure XRow (α : Type) where
  sku : String
  quantity : ℤ
  supplier : Option String
  other : α
deriving DecidableEq, Repr

/-- JavaScript truthiness of a possibly-undefined string: undefined and the
empty string are falsy. -/
def truthyStr : Option String → Bool
  | some s => s != ""
  | none => false

/-- The duplicate-supplier scan of `importOrderProducts` (lines 441-448):
after the first iteration `supplier_name` is the first row supplier, and
the flag is raised when a later row carries a truthy supplier different
from it. -/
def findDuplicateSupplier (first : Option String) (rest : List (XRow α)) : Bool :=
  rest.any (fun r => truthyStr r.supplier && r.supplier != first)

/-- The supplier lookup of `importOrderProducts` (line 454):
`suppliers.find((supplier) => supplier.name === supplier_name)`, which can
never match an undefined name. -/
def lookupSupplier (suppliers : List Supplier) : Option String → Option Supplier
  | none => none
  | some n => suppliers.find? (fun s => s.name == n)

/-- Key membership in the insertion-ordered map model of the JavaScript
`Map`. -/
def mapHas (m : List (String × XRow α)) (k : String) : Bool :=
  m.any (fun e => e.1 == k)

/-- `Map.prototype.set`: overwrite the value in place when the key exists
(keeping its insertion position), append a new entry otherwise. -/
def mapSet (m : List (String × XRow α)) (k : String) (v : XRow α) :
    List (String × XRow α) :=
  if mapHas m k then m.map (fun e => if e.1 == k then (k, v) else e)
  else m ++ [(k, v)]

/-- The in-place mutation `existingProd.quantity = newProd.quantity`
(line 471), seen through the map: the stored object for that key gets the
new quantity, everything else about it unchanged. -/
def mapSetQuantity (m : List (String × XRow α)) (k : String) (q : ℤ) :
    List (String × XRow α) :=
  m.map (fun e => if e.1 == k then (e.1, { e.2 with quantity := q }) else e)

/-- The merge phase of `importOrderProducts` (lines 461-480): keep only the
file rows whose sku belongs to the selected supplier product list, build a
Map over the existing lines keyed by sku, then fold the kept rows into it
(quantity overwrite when the key exists, insertion otherwise), and read the
array back from the map values. -/
def mergeImport (skus : List String) (orderProducts rows : List (XRow α)) :
    List (XRow α) :=
  let products_data := rows.filter (fun r => skus.contains r.sku)
  let m0 := orderProducts.foldl (fun m p => mapSet m p.sku p) []
  let m1 := products_data.foldl
    (fun m r =>
      if mapHas m r.sku then mapSetQuantity m r.sku r.quantity
      else mapSet m r.sku r) m0
  m1.map Prod.snd

/-- `importOrderProducts` (lines 419-486) restricted to its effect on
`orderProducts`: an empty sheet, a duplicate supplier or an unknown
supplier leave the array untouched; otherwise the data is merged against
the product list of the supplier named by the first row.  `getProducts`
stands for the `getProductsBySupplier` fetch done by `populateProducts`. -/
def importOrderProducts (suppliers : List Supplier)
    (getProducts : Supplier → List Product)
    (orderProducts : List (XRow α)) (data : List (XRow α)) : List (XRow α) :=
  match data with
  | [] => orderProducts
  | d0 :: rest =>
    if findDuplicateSupplier d0.supplier rest then orderProducts
    else
      match lookupSupplier suppliers d0.supplier with
      | none => orderProducts
      | some sup =>
        mergeImport ((getProducts sup).map Product.sku) orderProducts data

/-! Sample data used by witnesses and counterexamples. -/

/-- A plain physical-product order line with small concrete values. -/
def sampleLine : OrderLine :=
  { pk := none
    id := 1
    main := "m"
    name := "n"
    category := "c"
    brand := none
    quantity := 2
    quantity_received := 0
    sku := "A"
    barcode := "b"
    cost_price := some 10
    product_kind := "PHYSICAL"
    status := "PENDING"
    voucher_value := none
    supplier_discount_rate := none
    orders := none
    variations_json := none }

/-- A MONEY product with voucher value 100 and a 20 percent supplier
discount. -/
def sampleMoney : Product :=
  { id := 3
    sku := "V"
    name := "voucher"
    category := "c"
    brandName := some "b"
    reference := "r"
    main_image_link := "m"
    cost_price := 0
    tax_percent := 17
    product_kind := "MONEY"
    voucher_value := some 100
    supplier_discount_rate := some 20
    client_discount_rate := none }

/-- A MONEY product whose voucher value 2.349 moves under two-decimal
rounding (roundValue gives 2.35, whose toFixed(1) is 2.4 while the raw
toFixed(1) is 2.3). -/
def dupVoucherProduct : Product :=
  { id := 9
    sku := "GC"
    name := "gift card"
    category := "c"
    brandName := some "b"
    reference := "r"
    main_image_link := "m"
    cost_price := 0
    tax_percent := 0
    product_kind := "MONEY"
    voucher_value := some (2349 / 1000)
    supplier_discount_rate := some 0
    client_discount_rate := none }

/-- An existing order line for the import counterexample, as an import
array element. -/
def rowA1 : XRow Unit := { sku := "A", quantity := 1, supplier := none, other := () }

/-- A second existing order line with the same sku as `rowA1` (reachable:
the first addProduct variant accepts two lines with one sku when their
voucher values differ at one decimal). -/
def rowA2 : XRow Unit := { sku := "A", quantity := 2, supplier := none, other := () }

/-- An imported XLSX row naming supplier S with a sku the supplier
carries. -/
def rowB : XRow Unit := { sku := "B", quantity := 5, supplier := some "S", other := () }

/-- An imported XLSX row naming a supplier that is not in the loaded
list. -/
def rowT : XRow Unit := { sku := "B", quantity := 5, supplier := some "T", other := () }

/-- The one supplier loaded on the page for the import scenarios. -/
def supS : Supplier := { id := 1, name := "S", email := none }

/-- The one product supplier S carries in the import scenarios. -/
def prodB : Product :=
  { id := 2
    sku := "B"
    name := "bee"
    category := "c"
    brandName := some "b"
    reference := "r"
    main_image_link := "m"
    cost_price := 7
    tax_percent := 0
    product_kind := "PHYSICAL"
    voucher_value := none
    supplier_discount_rate := none
    client_discount_rate := none }

/-! Claim theorems. -/

/-- Claim C1, counterexample: at cost price 100 and tax percent 10 the two
tax-exclusion variants disagree: rounding 100 / ((100 + 10) / 100) to two
decimals gives 90.91, while rounding 100 * (1 - 10 / 100) gives 90. -/
theorem costExclusive_variants_differ :
    costExclusiveV1 100 10 ≠ costExclusiveV2 100 10 := by
  norm_num [costExclusiveV1, costExclusiveV2, roundValue]

/-- Claim C1 (amended): the two tax-exclusion variants of addProduct agree
when the tax percent is 0 (both then round the unchanged cost price); for a
non-zero tax percent they differ in general. -/
theorem costExclusive_variants_agree_at_zero_tax (c : ℚ) :
    costExclusiveV1 c 0 = costExclusiveV2 c 0 := by
  norm_num [costExclusiveV1, costExclusiveV2]

/-- Claim C3: a MONEY product added by the first addProduct variant gets
cost price floor(voucher_value * (1 - supplier_discount_rate / 100)), and
the MONEY branch of loadOrderFromInitData computes the same floored
discounted voucher value (with its || 0 fallbacks), not a unit cost with
tax. -/
theorem money_cost_price_spec :
    (∀ (sp : Product) (v r : ℚ) (qty : ℤ) (st : String) (l : List OrderLine)
        (p : OrderLine),
      sp.product_kind = "MONEY" → sp.voucher_value = some v →
      sp.supplier_discount_rate = some r →
      p ∈ addProduct (some sp) qty st l → p ∉ l →
      p.cost_price = some ((⌊v * (1 - r / 100)⌋ : ℤ) : ℚ)) ∧
    (∀ (pk : String) (sp : Product) (voucher : JSNum) (st : String)
        (ords vj : Option String),
      sp.product_kind = "MONEY" →
      (mkInitLine pk sp voucher st ords vj).cost_price =
        some ((⌊jsOrZero voucher *
          (1 - jsOrZero sp.supplier_discount_rate / 100)⌋ : ℤ) : ℚ)) := by
  constructor
  · intro sp v r qty st l p hkind hv hr hmem hnot
    unfold addProduct at hmem
    by_cases hg : l.any (fun q => sameSkuVoucher q sp)
    · simp [hg] at hmem
      exact absurd hmem hnot
    · simp [hg] at hmem
      rcases hmem with hmem | hmem
      · exact absurd hmem hnot
      · subst hmem
        simp [mkNewProduct, hkind, hv, hr, jsFloor, jsMul, jsSub, jsDiv]
  · intro pk sp voucher st ords vj hkind
    simp [mkInitLine, hkind]

/-- Claim C3, witness: adding the sample MONEY product (voucher 100,
discount rate 20) to an empty order prices the new line at
floor(100 * (1 - 20 / 100)). -/
theorem money_cost_price_spec_witness :
    (mkNewProduct sampleMoney 1 "PENDING").cost_price =
      some ((⌊(100 : ℚ) * (1 - 20 / 100)⌋ : ℤ) : ℚ) := by
  refine money_cost_price_spec.1 sampleMoney 100 20 1 "PENDING" []
    (mkNewProduct sampleMoney 1 "PENDING") rfl rfl rfl ?_ ?_
  · simp [addProduct]
  · simp

/-- Claim C4: the callAPI wrapper resolves with the data field of the
parsed body exactly when the response is ok and the body parses; a failed
fetch rejects with status -1; an unparsable body rejects with the HTTP
status only; a non-ok response with a parsed body rejects with the HTTP
status and that body. -/
theorem callAPI_contract {β ρ : Type} (r : FetchOutcome β ρ) :
    (∀ v, callAPI r = Except.ok v ↔
      ∃ status b, r = FetchOutcome.resp true status (some b) ∧ v = b.data) ∧
    (r = FetchOutcome.netFail →
      callAPI r = Except.error { status := -1, data := none }) ∧
    (∀ ok status, r = FetchOutcome.resp ok status none →
      callAPI r = Except.error { status := status, data := none }) ∧
    (∀ status b, r = FetchOutcome.resp false status (some b) →
      callAPI r = Except.error { status := status, data := some b }) := by
  refine ⟨?_, ?_, ?_, ?_⟩
  · intro v
    cases r with
    | netFail => simp [callAPI]
    | resp ok status body =>
      cases body with
      | none => simp [callAPI]
      | some b =>
        cases ok with
        | false => simp [callAPI]
        | true =>
          simp [callAPI]
          constructor
          · intro h
            exact ⟨status, b, ⟨rfl, rfl⟩, h.symm⟩
          · rintro ⟨s, b2, ⟨h1, h2⟩, hv⟩
            subst h2
            exact hv.symm
  · rintro rfl
    rfl
  · rintro ok status rfl
    rfl
  · rintro status b rfl
    rfl

/-- Claim C4, witness: an ok 200 response whose body parses with data field
5 resolves with 5. -/
theorem callAPI_contract_witness :
    callAPI (FetchOutcome.resp true 200 (some ⟨(5 : ℤ), ()⟩)) =
      Except.ok (5 : ℤ) :=
  ((callAPI_contract (FetchOutcome.resp true 200 (some ⟨(5 : ℤ), ()⟩))).1 5).mpr
    ⟨200, ⟨(5 : ℤ), ()⟩, rfl, rfl⟩

/-- Claim C7: sendProductsOrder PATCHes logistics/order-products/{id}
exactly when the id is non-empty and POSTs logistics/order-products exactly
when it is empty, so saving a new purchase order (the template passes the
empty id) POSTs and saving an existing one PATCHes. -/
theorem sendProductsOrder_method_spec (id : String) :
    ((sendProductsOrder id).method = Method.patch ↔ id ≠ "") ∧
    ((sendProductsOrder id).method = Method.post ↔ id = "") ∧
    (id ≠ "" →
      (sendProductsOrder id).endpoint = "logistics/order-products/" ++ id) ∧
    (id = "" → (sendProductsOrder id).endpoint = "logistics/order-products") := by
  by_cases h : id = "" <;> simp [sendProductsOrder, h]

/-- Claim C7, witness: the id "7" PATCHes and the empty id POSTs. -/
theorem sendProductsOrder_method_spec_witness :
    (sendProductsOrder "7").method = Method.patch ∧
    (sendProductsOrder "").method = Method.post :=
  ⟨(sendProductsOrder_method_spec "7").1.mpr (by decide),
   (sendProductsOrder_method_spec "").2.1.mpr rfl⟩

/-- Claim C9: deleteProduct removes exactly the lines whose concatenated
id/voucher key equals the given key; every other line survives with all
fields unchanged and multiplicity and relative order preserved (the result
is a sublist of the input), for any voucher rendering. -/
theorem deleteProduct_spec (numStr : JSNum → String) (id vv : String)
    (l : List OrderLine) :
    List.Sublist (deleteProduct numStr id vv l) l ∧
    (∀ p, p ∈ deleteProduct numStr id vv l ↔
      p ∈ l ∧ lineKey numStr p ≠ deleteKey id vv) ∧
    (∀ p, lineKey numStr p = deleteKey id vv →
      p ∉ deleteProduct numStr id vv l) ∧
    (∀ p, lineKey numStr p ≠ deleteKey id vv →
      (deleteProduct numStr id vv l).count p = l.count p) := by
  refine ⟨List.filter_sublist l, ?_, ?_, ?_⟩
  · intro p
    simp [deleteProduct]
  · intro p hkey
    simp [deleteProduct, hkey]
  · intro p hkey
    exact List.count_filter (by simpa using hkey)

/-- Claim C9, witness: deleting the key of the sample line removes it, and
deleting a non-matching key leaves the singleton order unchanged (witnessed
through the membership and count parts of the theorem). -/
theorem deleteProduct_spec_witness :
    sampleLine ∉
      deleteProduct (fun _ => "u") "1" "u" [sampleLine] ∧
    (deleteProduct (fun _ => "u") "2" "u" [sampleLine]).count sampleLine =
      ([sampleLine] : List OrderLine).count sampleLine :=
  ⟨(deleteProduct_spec (fun _ => "u") "1" "u" [sampleLine]).2.2.1 sampleLine
      (by decide),
   (deleteProduct_spec (fun _ => "u") "2" "u" [sampleLine]).2.2.2 sampleLine
      (by decide)⟩

/-- The subtotal reduce evaluated when every line carries a numeric cost
price: the fold computes the exact rational sum shifted by the start
value. -/
lemma subtotalFold_go (l : List OrderLine) :
    ∀ a : ℚ, (∀ p ∈ l, p.cost_price ≠ none) →
      l.foldl (fun x p => jsAdd x (jsMul (some (p.quantity : ℚ)) p.cost_price))
        (some a) =
      some (a + (l.map (fun p => (p.quantity : ℚ) * jsOrZero p.cost_price)).sum) := by
  induction l with
  | nil => intro a _; simp
  | cons p ps ih =>
    intro a h
    obtain ⟨c, hc⟩ := Option.ne_none_iff_exists.mp
      (h p (List.mem_cons_self p ps))
    have hc' : p.cost_price = some c := hc.symm
    have hrest := ih (a + (p.quantity : ℚ) * c)
      (fun q hq => h q (List.mem_cons_of_mem p hq))
    simp only [List.foldl_cons, List.map_cons, List.sum_cons, hc']
    have hinit :
        jsAdd (some a) (jsMul (some (p.quantity : ℚ)) (some c)) =
          some (a + (p.quantity : ℚ) * c) := rfl
    have hz : jsOrZero (some c) = c := rfl
    rw [hinit, hrest, hz]
    congr 1
    ring

/-- Claim C10: when every line has a numeric cost price, the displayed
subtotal is the sum of quantity times cost price over all lines rounded to
two decimals for a non-empty order, and 0 for an empty order. -/
theorem updateSubtotal_spec (l : List OrderLine)
    (h : ∀ p ∈ l, p.cost_price ≠ none) :
    updateSubtotal l =
      some (if l = [] then 0
        else roundValue
          ((l.map (fun p => (p.quantity : ℚ) * jsOrZero p.cost_price)).sum)) := by
  by_cases hl : l = []
  · subst hl
    simp [updateSubtotal]
  · have hlen : l.length ≠ 0 := by
      simpa [List.length_eq_zero] using hl
    have hfold := subtotalFold_go l 0 h
    simp [updateSubtotal, hlen, hl, subtotalFold, hfold, jsRound2]

/-- Claim C10, witness: the singleton order of the sample line (quantity 2,
cost price 10) displays round(2 * 10) = 20, by the theorem applied at that
order. -/
theorem updateSubtotal_spec_witness :
    updateSubtotal [sampleLine] =
      some (if ([sampleLine] : List OrderLine) = [] then 0
        else roundValue
          (([sampleLine].map
            (fun p => (p.quantity : ℚ) * jsOrZero p.cost_price)).sum)) :=
  updateSubtotal_spec [sampleLine] (by intro p hp; simp at hp; subst hp; simp [sampleLine])

/-- updateQuantity never changes the number of lines. -/
lemma updateQuantity_length (idx : ℤ) (vv : JSNum) (delta : ℤ) :
    ∀ l : List OrderLine, (updateQuantity idx vv delta l).length = l.length := by
  intro l
  induction l with
  | nil => rfl
  | cons p ps ih =>
    by_cases hp : uqMatch idx vv p
    · by_cases hq : p.quantity + delta > 0 <;>
        simp [updateQuantity, hp, hq]
    · simp [updateQuantity, hp, ih]

/-- When no line matches the key, updateQuantity is the identity. -/
lemma updateQuantity_no_match (idx : ℤ) (vv : JSNum) (delta : ℤ) :
    ∀ l : List OrderLine, l.find? (uqMatch idx vv) = none →
      updateQuantity idx vv delta l = l := by
  intro l
  induction l with
  | nil => intro _; rfl
  | cons p ps ih =>
    intro h
    rw [List.find?_cons] at h
    by_cases hp : uqMatch idx vv p
    · simp [hp] at h
    · simp only [hp, Bool.false_eq_true, if_neg] at h
      simp [updateQuantity, hp, ih h]

/-- When the first matching line would drop to a non-positive quantity,
updateQuantity is the identity. -/
lemma updateQuantity_nonpos (idx : ℤ) (vv : JSNum) (delta : ℤ) :
    ∀ (l : List OrderLine) (p : OrderLine),
      l.find? (uqMatch idx vv) = some p → p.quantity + delta ≤ 0 →
      updateQuantity idx vv delta l = l := by
  intro l
  induction l with
  | nil => intro p h; simp at h
  | cons q qs ih =>
    intro p h hle
    rw [List.find?_cons] at h
    by_cases hq : uqMatch idx vv q
    · simp only [hq, if_pos] at h
      cases h
      have hng : ¬ q.quantity + delta > 0 := by omega
      simp [updateQuantity, hq, hng]
    · simp only [hq, Bool.false_eq_true, if_neg] at h
      simp [updateQuantity, hq, ih p h hle]

/-- When the first matching line keeps a positive quantity, updateQuantity
replaces exactly that line (at its position) with the same line carrying
the bumped quantity. -/
lemma updateQuantity_pos (idx : ℤ) (vv : JSNum) (delta : ℤ) :
    ∀ (l : List OrderLine) (p : OrderLine),
      l.find? (uqMatch idx vv) = some p → 0 < p.quantity + delta →
      ∃ i, l.get? i = some p ∧
        updateQuantity idx vv delta l =
          l.set i { p with quantity := p.quantity + delta } := by
  intro l
  induction l with
  | nil => intro p h; simp at h
  | cons q qs ih =>
    intro p h hpos
    rw [List.find?_cons] at h
    by_cases hq : uqMatch idx vv q
    · simp only [hq, if_pos] at h
      cases h
      exact ⟨0, rfl, by simp [updateQuantity, hq, hpos]⟩
    · simp only [hq, Bool.false_eq_true, if_neg] at h
      obtain ⟨i, hget, hset⟩ := ih p h hpos
      exact ⟨i + 1, hget, by simp [updateQuantity, hq, hset]⟩

/-- Claim C8: for delta in either direction, updateQuantity bumps the first
line matching the (id, voucher value) key by delta exactly when the new
quantity stays positive, replacing that line in place and touching no other
line and no other field; with no match, or a non-positive new quantity, the
order is unchanged, so a quantity of 1 is never decremented away. -/
theorem updateQuantity_spec (idx : ℤ) (vv : JSNum) (delta : ℤ)
    (l : List OrderLine) (_hdelta : delta = -1 ∨ delta = 1) :
    (updateQuantity idx vv delta l).length = l.length ∧
    (l.find? (uqMatch idx vv) = none → updateQuantity idx vv delta l = l) ∧
    (∀ p, l.find? (uqMatch idx vv) = some p → p.quantity + delta ≤ 0 →
      updateQuantity idx vv delta l = l) ∧
    (∀ p, l.find? (uqMatch idx vv) = some p → 0 < p.quantity + delta →
      ∃ i, l.get? i = some p ∧
        updateQuantity idx vv delta l =
          l.set i { p with quantity := p.quantity + delta }) ∧
    (∀ p, l.find? (uqMatch idx vv) = some p → p.quantity = 1 → delta = -1 →
      updateQuantity idx vv delta l = l) := by
  refine ⟨updateQuantity_length idx vv delta l,
    updateQuantity_no_match idx vv delta l,
    updateQuantity_nonpos idx vv delta l,
    updateQuantity_pos idx vv delta l, ?_⟩
  intro p hfind hone hneg
  exact updateQuantity_nonpos idx vv delta l p hfind (by omega)

/-- Claim C8, witness: incrementing the sample line (quantity 2) by 1 in a
singleton order replaces it in place with quantity 3. -/
theorem updateQuantity_spec_witness :
    ∃ i, ([sampleLine] : List OrderLine).get? i = some sampleLine ∧
      updateQuantity 1 none 1 [sampleLine] =
        [sampleLine].set i
          { sampleLine with quantity := sampleLine.quantity + 1 } :=
  (updateQuantity_spec 1 none 1 [sampleLine] (Or.inr rfl)).2.2.2.1 sampleLine
    (by decide) (by decide)

/-- Two lines do not collide on the duplicate-line key of the first
addProduct variant: they differ in sku or in the toFixed(1) rendering of
their voucher values. -/
def distinctKey (p q : OrderLine) : Prop :=
  ¬ (p.sku = q.sku ∧ toFixed1 p.voucher_value = toFixed1 q.voucher_value)

/-- The line built by the first addProduct variant keeps the sku of the
selected product. -/
lemma mkNewProduct_sku (sp : Product) (qty : ℤ) (st : String) :
    (mkNewProduct sp qty st).sku = sp.sku := by
  by_cases h : sp.product_kind = "MONEY" <;> simp [mkNewProduct, h]

/-- When two-decimal rounding fixes the voucher value of the selected
product, the stored line carries exactly that voucher value. -/
lemma mkNewProduct_voucher (sp : Product) (qty : ℤ) (st : String)
    (h : jsRound2 sp.voucher_value = sp.voucher_value) :
    (mkNewProduct sp qty st).voucher_value = sp.voucher_value := by
  by_cases hk : sp.product_kind = "MONEY" <;> simp [mkNewProduct, hk, h]

/-- One addProduct step preserves pairwise key distinctness, provided the
added product voucher value is fixed by two-decimal rounding. -/
lemma addProduct_pairwise (sp : Product) (qty : ℤ) (st : String)
    (l : List OrderLine) (hsp : jsRound2 sp.voucher_value = sp.voucher_value)
    (hl : List.Pairwise distinctKey l) :
    List.Pairwise distinctKey (addProduct (some sp) qty st l) := by
  show List.Pairwise distinctKey
    (if (l.any fun p => sameSkuVoucher p sp) = true then l
      else l ++ [mkNewProduct sp qty st])
  by_cases hg : l.any (fun p => sameSkuVoucher p sp)
  · simpa [hg] using hl
  · rw [if_neg hg, List.pairwise_append]
    refine ⟨hl, List.pairwise_singleton _ _, ?_⟩
    intro a ha b hb
    simp only [List.mem_singleton] at hb
    subst hb
    have hga : ¬ (sameSkuVoucher a sp = true) := by
      intro hx
      exact hg (List.any_eq_true.mpr ⟨a, ha, hx⟩)
    intro hkey
    apply hga
    rcases hkey with ⟨hsku, hvv⟩
    rw [mkNewProduct_sku] at hsku
    rw [mkNewProduct_voucher sp qty st hsp] at hvv
    simp [sameSkuVoucher, hsku, hvv]

/-- Claim C6 (amended): starting from an empty order, after any sequence of
addProduct calls whose selected products all have voucher values fixed by
two-decimal rounding (in particular at most two decimals), no two lines
share both their sku and the toFixed(1) rendering of their voucher value.
Without that proviso the invariant fails, because a MONEY line stores its
voucher value re-rounded to two decimals while the duplicate guard compares
the raw selected value. -/
theorem addProduct_nodup_key (status : String) (seq : List (Product × ℤ))
    (h : ∀ pq ∈ seq, jsRound2 pq.1.voucher_value = pq.1.voucher_value) :
    List.Pairwise distinctKey (runAddProducts status [] seq) := by
  suffices haux : ∀ (seq2 : List (Product × ℤ)) (l : List OrderLine),
      (∀ pq ∈ seq2, jsRound2 pq.1.voucher_value = pq.1.voucher_value) →
      List.Pairwise distinctKey l →
      List.Pairwise distinctKey (runAddProducts status l seq2) by
    exact haux seq [] h List.Pairwise.nil
  intro seq2
  induction seq2 with
  | nil => intro l _ hl; exact hl
  | cons pq rest ih =>
    intro l hseq hl
    have hstep := addProduct_pairwise pq.1 pq.2 status l
      (hseq pq (List.mem_cons_self pq rest)) hl
    exact ih (addProduct (some pq.1) pq.2 status l)
      (fun x hx => hseq x (List.mem_cons_of_mem pq hx)) hstep

/-- Claim C6, witness: adding the sample MONEY product (voucher value 100,
already two-decimal stable) once from the empty order yields a
duplicate-free order, by the amended theorem. -/
theorem addProduct_nodup_key_witness :
    List.Pairwise distinctKey (runAddProducts "PENDING" [] [(sampleMoney, 1)]) :=
  addProduct_nodup_key "PENDING" [(sampleMoney, 1)] (by
    intro pq hpq
    simp only [List.mem_singleton] at hpq
    subst hpq
    show jsRound2 (some 100) = some 100
    norm_num [jsRound2, roundValue])

/-- Claim C6, counterexample: adding the gift-card MONEY product with
voucher value 2.349 twice from the empty order produces two lines with the
same sku and equal voucher values (both 2.35, so certainly agreeing at one
decimal): the guard compares toFixed(1) of the raw value 2.349 (2.3)
against toFixed(1) of the stored rounded value 2.35 (2.4) and misses the
duplicate. -/
theorem addProduct_dup_key_counterexample :
    ¬ List.Pairwise distinctKey
      (runAddProducts "" [] [(dupVoucherProduct, 1), (dupVoucherProduct, 1)]) := by
  have hfix1 : toFixed1 (jsRound2 (some (2349 / 1000 : ℚ))) = some 24 := by
    norm_num [toFixed1, jsRound2, roundValue]
  have hfix2 : toFixed1 (some (2349 / 1000 : ℚ)) = some 23 := by
    norm_num [toFixed1]
  have hvv : (mkNewProduct dupVoucherProduct 1 "").voucher_value =
      jsRound2 (some (2349 / 1000 : ℚ)) := by
    simp [mkNewProduct, dupVoucherProduct]
  have hguard : sameSkuVoucher (mkNewProduct dupVoucherProduct 1 "")
      dupVoucherProduct = false := by
    simp only [sameSkuVoucher, hvv]
    simp [dupVoucherProduct, hfix1, hfix2]
  have hrun : runAddProducts "" [] [(dupVoucherProduct, 1), (dupVoucherProduct, 1)] =
      [mkNewProduct dupVoucherProduct 1 "", mkNewProduct dupVoucherProduct 1 ""] := by
    show addProduct (some dupVoucherProduct) 1 ""
        (addProduct (some dupVoucherProduct) 1 "" []) = _
    have h1 : addProduct (some dupVoucherProduct) 1 "" [] =
        [mkNewProduct dupVoucherProduct 1 ""] := by
      simp [addProduct]
    rw [h1]
    simp [addProduct, hguard]
  rw [hrun]
  intro hpair
  rcases List.pairwise_cons.mp hpair with ⟨hrel, _⟩
  exact hrel (mkNewProduct dupVoucherProduct 1 "") (List.mem_singleton.mpr rfl)
    ⟨rfl, rfl⟩

/-- The duplicate-supplier flag is down exactly when every later row with a
truthy supplier names the supplier of the first row. -/
lemma findDuplicateSupplier_eq_false {α : Type} (first : Option String)
    (rest : List (XRow α)) :
    findDuplicateSupplier first rest = false ↔
      ∀ r ∈ rest, truthyStr r.supplier = true → r.supplier = first := by
  simp only [findDuplicateSupplier, List.any_eq_false, Bool.and_eq_true,
    bne_iff_ne]
  constructor
  · intro h r hr htr
    by_contra hne
    exact h r hr ⟨htr, hne⟩
  · rintro h r hr ⟨htr, hne⟩
    exact hne (h r hr htr)

/-- A successful supplier lookup returns a loaded supplier whose name is
the (defined) first-row supplier name. -/
lemma lookupSupplier_some {suppliers : List Supplier} {o : Option String}
    {sup : Supplier} (h : lookupSupplier suppliers o = some sup) :
    sup ∈ suppliers ∧ some sup.name = o := by
  cases o with
  | none => simp [lookupSupplier] at h
  | some n =>
    simp only [lookupSupplier] at h
    refine ⟨List.mem_of_find?_eq_some h, ?_⟩
    have := List.find?_some h
    simp only [beq_iff_eq] at this
    rw [this]

/-- Claim C5: the import changes orderProducts only when every row naming a
(non-empty) supplier agrees with the first row and that supplier is in the
loaded list; a duplicate supplier or an unknown supplier leaves
orderProducts untouched (the alert has no state effect). -/
theorem importOrderProducts_validation {α : Type} (suppliers : List Supplier)
    (getProducts : Supplier → List Product) (l data : List (XRow α)) :
    (∀ d0 rest, data = d0 :: rest →
      (findDuplicateSupplier d0.supplier rest = false ↔
        ∀ r ∈ rest, truthyStr r.supplier = true → r.supplier = d0.supplier)) ∧
    (∀ d0 rest, data = d0 :: rest →
      findDuplicateSupplier d0.supplier rest = true →
      importOrderProducts suppliers getProducts l data = l) ∧
    (∀ d0 rest, data = d0 :: rest →
      lookupSupplier suppliers d0.supplier = none →
      importOrderProducts suppliers getProducts l data = l) ∧
    (importOrderProducts suppliers getProducts l data ≠ l →
      ∃ d0 rest sup, data = d0 :: rest ∧
        (∀ r ∈ rest, truthyStr r.supplier = true → r.supplier = d0.supplier) ∧
        lookupSupplier suppliers d0.supplier = some sup ∧
        sup ∈ suppliers ∧ some sup.name = d0.supplier) := by
  refine ⟨?_, ?_, ?_, ?_⟩
  · intro d0 rest _
    exact findDuplicateSupplier_eq_false d0.supplier rest
  · rintro d0 rest rfl hdup
    simp [importOrderProducts, hdup]
  · rintro d0 rest rfl hnone
    by_cases hdup : findDuplicateSupplier d0.supplier rest
    · simp [importOrderProducts, hdup]
    · simp [importOrderProducts, hdup, hnone]
  · intro hch
    cases data with
    | nil => exact absurd rfl hch
    | cons d0 rest =>
      by_cases hdup : findDuplicateSupplier d0.supplier rest
      · exact absurd (by simp [importOrderProducts, hdup]) hch
      · cases hsup : lookupSupplier suppliers d0.supplier with
        | none => exact absurd (by simp [importOrderProducts, hdup, hsup]) hch
        | some sup =>
          obtain ⟨hmem, hname⟩ := lookupSupplier_some hsup
          exact ⟨d0, rest, sup, rfl,
            (findDuplicateSupplier_eq_false d0.supplier rest).mp
              (by simpa using hdup), hsup, hmem, hname⟩

/-- Claim C5, witness: a one-row sheet naming the unknown supplier T leaves
the empty order unchanged, by the unknown-supplier part of the theorem. -/
theorem importOrderProducts_validation_witness :
    importOrderProducts [supS] (fun _ => [prodB]) ([] : List (XRow Unit))
      [rowT] = [] :=
  (importOrderProducts_validation [supS] (fun _ => [prodB]) [] [rowT]).2.2.1
    rowT [] rfl (by decide)

/-- Updating a quantity through the map does not change the key set. -/
lemma mapHas_mapSetQuantity {α : Type} (m : List (String × XRow α))
    (k : String) (q : ℤ) (k2 : String) :
    mapHas (mapSetQuantity m k q) k2 = mapHas m k2 := by
  induction m with
  | nil => rfl
  | cons e es ih =>
    simp only [mapSetQuantity, List.map_cons] at ih ⊢
    simp only [mapHas, List.any_cons] at ih ⊢
    by_cases hk : (e.1 == k) = true
    · rw [if_pos hk, ih]
    · rw [if_neg hk, ih]

/-- Key membership after appending one entry. -/
lemma mapHas_append_single {α : Type} (m : List (String × XRow α))
    (k : String) (v : XRow α) (k2 : String) :
    mapHas (m ++ [(k, v)]) k2 = (mapHas m k2 || (k == k2)) := by
  simp [mapHas]

/-- Building the map over lines with pairwise distinct, fresh skus appends
one entry per line, keyed by its sku, in order. -/
lemma foldl_mapSet_eq {α : Type} :
    ∀ (l : List (XRow α)) (m : List (String × XRow α)),
      (∀ p ∈ l, mapHas m p.sku = false) → (l.map XRow.sku).Nodup →
      l.foldl (fun m p => mapSet m p.sku p) m =
        m ++ l.map (fun p => (p.sku, p)) := by
  intro l
  induction l with
  | nil => intro m _ _; simp
  | cons p ps ih =>
    intro m hfresh hnd
    have hp : mapHas m p.sku = false := hfresh p (List.mem_cons_self p ps)
    have hset : mapSet m p.sku p = m ++ [(p.sku, p)] := by
      simp [mapSet, hp]
    rw [List.map_cons, List.nodup_cons] at hnd
    have hfresh2 : ∀ q ∈ ps, mapHas (m ++ [(p.sku, p)]) q.sku = false := by
      intro q hq
      rw [mapHas_append_single]
      have h1 : mapHas m q.sku = false :=
        hfresh q (List.mem_cons_of_mem p hq)
      have h2 : p.sku ≠ q.sku := by
        intro hx
        exact hnd.1 (hx ▸ List.mem_map_of_mem XRow.sku hq)
      simp [h1, h2]
    calc (p :: ps).foldl (fun m p => mapSet m p.sku p) m
        = ps.foldl (fun m p => mapSet m p.sku p) (m ++ [(p.sku, p)]) := by
          rw [List.foldl_cons, hset]
      _ = (m ++ [(p.sku, p)]) ++ ps.map (fun p => (p.sku, p)) :=
          ih (m ++ [(p.sku, p)]) hfresh2 hnd.2
      _ = m ++ (p :: ps).map (fun p => (p.sku, p)) := by
          simp

/-- Folding sku-distinct rows into the map: entries whose key some row
carries get that row quantity, every other entry is untouched, and rows
with fresh keys are appended in order. -/
lemma foldl_rowStep_eq {α : Type} :
    ∀ (R : List (XRow α)) (m : List (String × XRow α)),
      (R.map XRow.sku).Nodup →
      R.foldl (fun m r =>
        if mapHas m r.sku then mapSetQuantity m r.sku r.quantity
        else mapSet m r.sku r) m =
      m.map (fun e =>
        match R.find? (fun r => r.sku == e.1) with
        | some r => (e.1, { e.2 with quantity := r.quantity })
        | none => e)
      ++ (R.filter (fun r => !mapHas m r.sku)).map (fun r => (r.sku, r)) := by
  intro R
  induction R with
  | nil =>
    intro m _
    simp
  | cons r R2 ih =>
    intro m hnd
    rw [List.map_cons, List.nodup_cons] at hnd
    have hnotin : ∀ x ∈ R2, (x.sku == r.sku) = false := by
      intro x hx
      rw [beq_eq_false_iff_ne]
      intro hb
      exact hnd.1 (hb ▸ List.mem_map_of_mem XRow.sku hx)
    rw [List.foldl_cons]
    by_cases h : mapHas m r.sku = true
    · rw [if_pos h, ih (mapSetQuantity m r.sku r.quantity) hnd.2]
      have hmap : (mapSetQuantity m r.sku r.quantity).map (fun e =>
            match R2.find? (fun x => x.sku == e.1) with
            | some x => (e.1, { e.2 with quantity := x.quantity })
            | none => e) =
          m.map (fun e =>
            match (r :: R2).find? (fun x => x.sku == e.1) with
            | some x => (e.1, { e.2 with quantity := x.quantity })
            | none => e) := by
        rw [mapSetQuantity, List.map_map]
        apply List.map_congr_left
        rintro ⟨k, v⟩ _
        by_cases hk : (k == r.sku) = true
        · have hr : (r.sku == k) = true := by
            rw [beq_iff_eq] at hk ⊢
            exact hk.symm
          have hfind2 : R2.find? (fun x => x.sku == k) = none := by
            rw [List.find?_eq_none]
            intro x hx hb
            rw [beq_iff_eq] at hb
            have hx2 := hnotin x hx
            rw [beq_eq_false_iff_ne] at hx2
            rw [beq_iff_eq] at hk
            exact hx2 (hb.trans hk)
          simp only [Function.comp_apply]
          rw [if_pos hk]
          rw [show (r :: R2).find? (fun x => x.sku == k) = some r from
            List.find?_cons_of_pos _ hr]
          rw [hfind2]
        · have hr : ¬ ((r.sku == k) = true) := by
            rw [beq_iff_eq] at hk ⊢
            exact fun hx => hk hx.symm
          simp only [Function.comp_apply]
          rw [if_neg hk]
          rw [show (r :: R2).find? (fun x => x.sku == k) =
              R2.find? (fun x => x.sku == k) from
            List.find?_cons_of_neg _ hr]
      have hfilter : R2.filter (fun x =>
            !mapHas (mapSetQuantity m r.sku r.quantity) x.sku) =
          (r :: R2).filter (fun x => !mapHas m x.sku) := by
        rw [List.filter_cons_of_neg (by simp [h])]
        apply List.filter_congr
        intro x _
        rw [mapHas_mapSetQuantity]
      rw [hmap, hfilter]
    · rw [if_neg h]
      have hfalse : mapHas m r.sku = false := by
        simpa using h
      have hset : mapSet m r.sku r = m ++ [(r.sku, r)] := by
        simp [mapSet, hfalse]
      rw [hset, ih (m ++ [(r.sku, r)]) hnd.2]
      have hentries : ∀ e ∈ m, (e.1 == r.sku) = false := by
        have hall : ∀ x ∈ m, ¬ ((fun e => e.1 == r.sku) x = true) :=
          List.any_eq_false.mp hfalse
        intro e he
        have hne := hall e he
        simpa using hne
      have hfind2r : R2.find? (fun x => x.sku == r.sku) = none := by
        rw [List.find?_eq_none]
        intro x hx hb
        rw [hnotin x hx] at hb
        exact absurd hb (by simp)
      have hmap : (m ++ [(r.sku, r)]).map (fun e =>
            match R2.find? (fun x => x.sku == e.1) with
            | some x => (e.1, { e.2 with quantity := x.quantity })
            | none => e) =
          m.map (fun e =>
            match (r :: R2).find? (fun x => x.sku == e.1) with
            | some x => (e.1, { e.2 with quantity := x.quantity })
            | none => e) ++ [(r.sku, r)] := by
        rw [List.map_append]
        congr 1
        · apply List.map_congr_left
          intro e he
          have hhead : ¬ ((r.sku == e.1) = true) := by
            have hee := hentries e he
            rw [beq_eq_false_iff_ne] at hee
            rw [beq_iff_eq]
            exact fun hx => hee hx.symm
          rw [show (r :: R2).find? (fun x => x.sku == e.1) =
              R2.find? (fun x => x.sku == e.1) from
            List.find?_cons_of_neg _ hhead]
        · simp [hfind2r]
      have hfilter : (R2.filter (fun x => !mapHas (m ++ [(r.sku, r)]) x.sku)) =
          R2.filter (fun x => !mapHas m x.sku) := by
        apply List.filter_congr
        intro x hx
        show (!mapHas (m ++ [(r.sku, r)]) x.sku) = (!mapHas m x.sku)
        rw [mapHas_append_single]
        have hb : (r.sku == x.sku) = false := by
          rw [beq_eq_false_iff_ne]
          intro hx2
          have := hnotin x hx
          rw [beq_eq_false_iff_ne] at this
          exact this hx2.symm
        rw [hb, Bool.or_false]
      have htarget : (r :: R2).filter (fun x => !mapHas m x.sku) =
          r :: R2.filter (fun x => !mapHas m x.sku) :=
        List.filter_cons_of_pos (by simp [hfalse])
      rw [hmap, hfilter, htarget]
      simp

/-- Key membership in the map built over the existing lines is sku
membership in the lines. -/
lemma mapHas_pairs {α : Type} (l : List (XRow α)) (k : String) :
    mapHas (l.map (fun p => (p.sku, p))) k = l.any (fun p => p.sku == k) := by
  induction l with
  | nil => rfl
  | cons p ps ihp =>
    simp only [List.map_cons, mapHas, List.any_cons] at ihp ⊢
    rw [ihp]

/-- Taking the value of an updated entry for an existing line commutes with
the entry update. -/
lemma snd_upd_comm {α : Type} (R : List (XRow α)) (p : XRow α) :
    Prod.snd (match R.find? (fun r => r.sku == p.sku) with
      | some r => (p.sku, { p with quantity := r.quantity })
      | none => (p.sku, p)) =
    (match R.find? (fun r => r.sku == p.sku) with
      | some r => { p with quantity := r.quantity }
      | none => p) := by
  cases hf : R.find? (fun r => r.sku == p.sku) <;> rfl

/-- The merge phase of the import, under distinct skus on both sides:
existing lines keep their position and all fields except that a line whose
sku some kept row carries takes that row quantity; the kept rows with new
skus are appended in file order. -/
lemma mergeImport_eq {α : Type} (skus : List String) (l rows : List (XRow α))
    (hl : (l.map XRow.sku).Nodup)
    (hrows : ((rows.filter (fun r => skus.contains r.sku)).map XRow.sku).Nodup) :
    mergeImport skus l rows =
      l.map (fun p =>
        match (rows.filter (fun r => skus.contains r.sku)).find?
            (fun r => r.sku == p.sku) with
        | some r => { p with quantity := r.quantity }
        | none => p)
      ++ (rows.filter (fun r => skus.contains r.sku)).filter
          (fun r => !(l.any (fun p => p.sku == r.sku))) := by
  simp only [mergeImport]
  have hm0 : l.foldl (fun m p => mapSet m p.sku p) [] =
      l.map (fun p => (p.sku, p)) := by
    rw [foldl_mapSet_eq l [] (fun p _ => rfl) hl]
    simp
  rw [hm0, foldl_rowStep_eq (rows.filter (fun r => skus.contains r.sku))
    (l.map (fun p => (p.sku, p))) hrows]
  rw [List.map_append]
  congr 1
  · rw [List.map_map, List.map_map]
    apply List.map_congr_left
    intro p _
    exact snd_upd_comm (rows.filter (fun r => skus.contains r.sku)) p
  · rw [List.filter_congr (fun x _ => by
      show (!mapHas (l.map (fun p => (p.sku, p))) x.sku) =
        (!(l.any (fun p => p.sku == x.sku)))
      rw [mapHas_pairs])]
    rw [List.map_map]
    have hid : (Prod.snd ∘ fun r : XRow α => (r.sku, r)) = id := rfl
    rw [hid, List.map_id]

/-- Claim C2 (amended): when the import passes validation and neither the
existing order nor the kept file rows repeat a sku, the merged order is the
existing lines in place (a line whose sku a kept row carries takes exactly
that row quantity, all other fields unchanged) followed by the kept rows
with new skus in file order; file rows whose sku the selected supplier does
not carry are ignored.  Without the distinct-sku provisos the claim fails:
the JavaScript Map keyed by sku collapses duplicate-sku lines. -/
theorem importOrderProducts_merge_spec {α : Type} (suppliers : List Supplier)
    (getProducts : Supplier → List Product) (l data : List (XRow α))
    (d0 : XRow α) (rest : List (XRow α)) (sup : Supplier)
    (hdata : data = d0 :: rest)
    (hdup : findDuplicateSupplier d0.supplier rest = false)
    (hsup : lookupSupplier suppliers d0.supplier = some sup)
    (hl : (l.map XRow.sku).Nodup)
    (hrows : ((data.filter (fun r =>
      ((getProducts sup).map Product.sku).contains r.sku)).map XRow.sku).Nodup) :
    importOrderProducts suppliers getProducts l data =
      l.map (fun p =>
        match (data.filter (fun r =>
            ((getProducts sup).map Product.sku).contains r.sku)).find?
            (fun r => r.sku == p.sku) with
        | some r => { p with quantity := r.quantity }
        | none => p)
      ++ (data.filter (fun r =>
          ((getProducts sup).map Product.sku).contains r.sku)).filter
          (fun r => !(l.any (fun p => p.sku == r.sku))) := by
  subst hdata
  have hstep : importOrderProducts suppliers getProducts l (d0 :: rest) =
      mergeImport ((getProducts sup).map Product.sku) l (d0 :: rest) := by
    simp [importOrderProducts, hdup, hsup]
  rw [hstep]
  exact mergeImport_eq ((getProducts sup).map Product.sku) l (d0 :: rest) hl
    hrows

/-- Claim C2, counterexample: with two existing lines sharing the sku A
(reachable through the voucher-aware duplicate guard) and a file that does
not mention A at all, the import drops the first A line even though its sku
does not appear in the file, contradicting the claim that such lines are
kept unchanged. -/
theorem importOrderProducts_merge_counterexample :
    rowA1.sku ∉ ([rowB].map XRow.sku) ∧
    rowA1 ∈ ([rowA1, rowA2] : List (XRow Unit)) ∧
    rowA1 ∉ importOrderProducts [supS] (fun _ => [prodB]) [rowA1, rowA2] [rowB] := by
  refine ⟨by decide, by decide, ?_⟩
  have hres : importOrderProducts [supS] (fun _ => [prodB]) [rowA1, rowA2] [rowB] =
      [rowA2, rowB] := by rfl
  rw [hres]
  decide

/-- Claim C2, witness: a singleton order with sku A merged with a one-row
file for sku B (carried by supplier S) keeps the A line unchanged and
appends the B row, by the amended theorem. -/
theorem importOrderProducts_merge_spec_witness :
    importOrderProducts [supS] (fun _ => [prodB]) [rowA1] [rowB] =
      [rowA1].map (fun p =>
        match ([rowB].filter (fun r =>
            (((fun _ => [prodB]) supS).map Product.sku).contains r.sku)).find?
            (fun r => r.sku == p.sku) with
        | some r => { p with quantity := r.quantity }
        | none => p)
      ++ ([rowB].filter (fun r =>
          (((fun _ => [prodB]) supS).map Product.sku).contains r.sku)).filter
          (fun r => !([rowA1].any (fun p => p.sku == r.sku))) :=
  importOrderProducts_merge_spec [supS] (fun _ => [prodB]) [rowA1] [rowB]
    rowB [] supS rfl (by decide) (by decide) (by decide) (by decide)

end PoPopulate
